import Mathlib

/-!
Verification of `tensorflow/contrib/distributions/python/ops/bernoulli.py`.

The module is a thin statistical-formula library: every operation of the
`Bernoulli` class is an elementwise closed-form numeric formula over the
parameter tensors `p`, `q = 1 - p` and `logits`.  We embed a tensor of a
fixed (post-broadcast) batch shape as a function `ι → ℝ` from a batch index
type `ι` to the reals, and every operation elementwise, mirroring how the
hosting tensor engine applies the formulas independently per batch entry.
The sample dtype cast of a boolean tensor is modelled as the numeric
indicator `if b then 1 else 0`.
-/

open Real

noncomputable section

/-- Modelled from the spec: `math_ops.sigmoid` lives outside `src/`.  The
spec's glossary fixes logits as the log-odds `log(p/(1-p))`, whose inverse is
the standard logistic sigmoid `1 / (1 + exp(-x))`. -/
def sigmoid (x : ℝ) : ℝ := 1 / (1 + Real.exp (-x))

/-- Modelled from the spec: `nn.softplus` lives outside `src/`.  The spec's
"numerically stable softplus-based formula" refers to the standard softplus
`log(1 + exp(x))`. -/
def softplus (x : ℝ) : ℝ := Real.log (1 + Real.exp x)

/-- Modelled from the spec: `nn.sigmoid_cross_entropy_with_logits` lives
outside `src/`.  It is the sigmoid cross-entropy between logits `x` and a
target `z`, computed by the framework in the overflow-safe form
`max(x, 0) - x*z + log(1 + exp(-|x|))`. -/
def sigmoid_cross_entropy_with_logits (x z : ℝ) : ℝ :=
  max x 0 - x * z + Real.log (1 + Real.exp (-|x|))

/-- A constructed Bernoulli distribution instance: the three derived
parameter tensors held after `Bernoulli.__init__` has run
(`self._logits`, `self._p`, `self._q`). -/
structure Bernoulli (ι : Type) where
  logits : ι → ℝ
  p : ι → ℝ
  q : ι → ℝ

/-- Modelled from the spec: `distribution_util.get_logits_and_prob` lives
outside `src/`.  Per the spec, construction accepts exactly one of `p` or
`logits`, failing with an argument error (`ValueError`) when both or neither
are supplied, and computes the missing parameter through the log-odds
correspondence: `p = sigmoid(logits)` when `logits` is given, and
`logits = log(p) - log(1-p)` when `p` is given. -/
def get_logits_and_prob {ι : Type} (logits p : Option (ι → ℝ)) :
    Except String ((ι → ℝ) × (ι → ℝ)) :=
  match logits, p with
  | none, none => .error "Must pass p or logits."
  | some _, some _ => .error "Must pass either p or logits, not both."
  | some l, none => .ok (l, fun i => sigmoid (l i))
  | none, some pr => .ok (fun i => Real.log (pr i) - Real.log (1 - pr i), pr)

/-- `Bernoulli.__init__`: obtain `logits` and `p` from
`get_logits_and_prob`, then store `q = 1 - p`. -/
def Bernoulli.construct {ι : Type} (logits p : Option (ι → ℝ)) :
    Except String (Bernoulli ι) :=
  (get_logits_and_prob logits p).map fun lp =>
    { logits := lp.1, p := lp.2, q := fun i => 1 - lp.2 i }

/-- `array_ops.ones_like`: a tensor of ones with the shape of `t`. -/
def ones_like {ι : Type} (_t : ι → ℝ) : ι → ℝ := fun _ => 1

/-- `math_ops.cast` of a boolean tensor entry to the numeric sample dtype. -/
def cast_bool (b : Bool) : ℝ := if b then 1 else 0

/-- `Bernoulli._sample_n`: the uniform noise tensor of shape
`[n] + batch_shape` drawn by `random_ops.random_uniform` is passed in
explicitly (the generator lives outside `src/`; per the spec it yields
values in `[0,1)`).  The sample is the boolean tensor `uniform < p` cast to
the sample dtype. -/
def Bernoulli.sample_n {ι : Type} (b : Bernoulli ι) (n : ℕ)
    (uniform : Fin n → ι → ℝ) : Fin n → ι → ℝ :=
  fun k i => cast_bool (decide (uniform k i < b.p i))

/-- `Bernoulli._log_prob`: broadcast `event` and `logits` to a common shape
by multiplying with `ones_like` of the other (elementwise identity once both
tensors share the index type), then negate the sigmoid cross-entropy. -/
def Bernoulli.log_prob {ι : Type} (b : Bernoulli ι) (event : ι → ℝ) : ι → ℝ :=
  let logits := fun i => ones_like event i * b.logits i
  let event2 := fun i => ones_like logits i * event i
  fun i => -(sigmoid_cross_entropy_with_logits (logits i) (event2 i))

/-- `Bernoulli._prob`: exponentiate the log-probability. -/
def Bernoulli.prob {ι : Type} (b : Bernoulli ι) (event : ι → ℝ) : ι → ℝ :=
  fun i => Real.exp (b.log_prob event i)

/-- `Bernoulli._entropy`: `-logits * (sigmoid(logits) - 1)
+ log(1 + exp(-logits))`. -/
def Bernoulli.entropy {ι : Type} (b : Bernoulli ι) : ι → ℝ :=
  fun i => -b.logits i * (sigmoid (b.logits i) - 1) +
    Real.log (1 + Real.exp (-b.logits i))

/-- `Bernoulli._mean`: the identity of `p`. -/
def Bernoulli.mean {ι : Type} (b : Bernoulli ι) : ι → ℝ := fun i => b.p i

/-- `Bernoulli._variance`: `q * p`. -/
def Bernoulli.variance {ι : Type} (b : Bernoulli ι) : ι → ℝ :=
  fun i => b.q i * b.p i

/-- `Bernoulli._std`: square root of the variance. -/
def Bernoulli.std {ι : Type} (b : Bernoulli ι) : ι → ℝ :=
  fun i => Real.sqrt (b.variance i)

/-- `Bernoulli._mode`: the boolean tensor `p > q` cast to the sample
dtype. -/
def Bernoulli.mode {ι : Type} (b : Bernoulli ι) : ι → ℝ :=
  fun i => cast_bool (decide (b.p i > b.q i))

/-- `BernoulliWithSigmoidP.__init__`: delegate to the base constructor with
`p = sigmoid(p)`. -/
def BernoulliWithSigmoidP.construct {ι : Type} (p : ι → ℝ) :
    Except String (Bernoulli ι) :=
  Bernoulli.construct none (some fun i => sigmoid (p i))

/-- `_kl_bernoulli_bernoulli`: the registered closed-form batched
KL divergence between two Bernoulli instances. -/
def kl_bernoulli_bernoulli {ι : Type} (a b : Bernoulli ι) : ι → ℝ :=
  fun i =>
    sigmoid (a.logits i) * (-softplus (-a.logits i) + softplus (-b.logits i)) +
    sigmoid (-a.logits i) * (-softplus (a.logits i) + softplus (b.logits i))

/-- The spec's reference Bernoulli entropy `-p*log(p) - q*log(q)` with
`q = 1 - p`, written from the spec's words for comparison with the source's
closed form. -/
def bernoulliEntropySpec (p : ℝ) : ℝ :=
  -(p * Real.log p) - (1 - p) * Real.log (1 - p)

/-- Concrete batch for witnesses: the scalar distribution with `p = 1/2`,
exactly as `Bernoulli.construct none (some pHalf)` builds it. -/
def pHalf : Unit → ℝ := fun _ => 1 / 2

def bHalf : Bernoulli Unit :=
  { logits := fun i => Real.log (pHalf i) - Real.log (1 - pHalf i)
    p := pHalf
    q := fun i => 1 - pHalf i }

def eventOne : Unit → ℝ := fun _ => 1

/-- Concrete degenerate instance with `p = 1` for the sampling witness. -/
def bExtreme : Bernoulli Unit :=
  { logits := fun _ => 0, p := fun _ => 1, q := fun _ => 0 }

def uZero : Fin 1 → Unit → ℝ := fun _ _ => 0

def xZero : Unit → ℝ := fun _ => 0

theorem one_add_exp_pos (x : ℝ) : 0 < 1 + Real.exp x := by
  have h := Real.exp_pos x
  linarith

theorem log_sigmoid_eq (x : ℝ) :
    Real.log (sigmoid x) = -Real.log (1 + Real.exp (-x)) := by
  rw [sigmoid, one_div, Real.log_inv]

theorem one_sub_sigmoid_eq (x : ℝ) :
    1 - sigmoid x = Real.exp (-x) / (1 + Real.exp (-x)) := by
  have h := one_add_exp_pos (-x)
  rw [sigmoid]
  field_simp

theorem log_one_sub_sigmoid (x : ℝ) :
    Real.log (1 - sigmoid x) = -x - Real.log (1 + Real.exp (-x)) := by
  rw [one_sub_sigmoid_eq,
    Real.log_div (Real.exp_ne_zero _) (ne_of_gt (one_add_exp_pos _)),
    Real.log_exp]

theorem log_one_add_exp_neg (x : ℝ) :
    Real.log (1 + Real.exp (-x)) = -x + Real.log (1 + Real.exp x) := by
  have h : 1 + Real.exp (-x) = Real.exp (-x) * (1 + Real.exp x) := by
    rw [mul_add, mul_one, ← Real.exp_add]
    have h2 : -x + x = 0 := by ring
    rw [h2, Real.exp_zero]
    ring
  rw [h, Real.log_mul (Real.exp_ne_zero _) (ne_of_gt (one_add_exp_pos _)),
    Real.log_exp]

theorem neg_sce_closed_form (x z : ℝ) :
    -(sigmoid_cross_entropy_with_logits x z) =
      z * Real.log (sigmoid x) + (1 - z) * Real.log (1 - sigmoid x) := by
  rw [log_sigmoid_eq, log_one_sub_sigmoid, sigmoid_cross_entropy_with_logits]
  rcases le_or_lt 0 x with h | h
  · rw [abs_of_nonneg h, max_eq_left h]
    ring
  · rw [abs_of_neg h, neg_neg, max_eq_right h.le, log_one_add_exp_neg]
    ring

/-- C1: construction fails with an argument error exactly when both or
neither of `p`/`logits` are supplied; with exactly one supplied it succeeds
and computes the other parameter from the given one (`p = sigmoid(logits)`,
respectively `logits = log(p) - log(1-p)` and `q = 1 - p`). -/
theorem bernoulli_construct_exclusive {ι : Type} (lo po : Option (ι → ℝ)) :
    ((∃ e, Bernoulli.construct lo po = .error e) ↔ lo.isSome = po.isSome) ∧
    ((∃ b, Bernoulli.construct lo po = .ok b) ↔ lo.isSome ≠ po.isSome) ∧
    (∀ l, Bernoulli.construct (some l) (none : Option (ι → ℝ)) =
      .ok { logits := l, p := fun i => sigmoid (l i),
            q := fun i => 1 - sigmoid (l i) }) ∧
    (∀ pr, Bernoulli.construct (none : Option (ι → ℝ)) (some pr) =
      .ok { logits := fun i => Real.log (pr i) - Real.log (1 - pr i), p := pr,
            q := fun i => 1 - pr i }) := by
  refine ⟨?_, ?_, fun l => rfl, fun pr => rfl⟩ <;>
    cases lo <;> cases po <;>
      simp [Bernoulli.construct, get_logits_and_prob, Except.map]

theorem bernoulli_construct_exclusive_witness :
    ((∃ e, Bernoulli.construct (none : Option (Unit → ℝ)) (some pHalf) =
        .error e) ↔ (none : Option (Unit → ℝ)).isSome = (some pHalf).isSome) ∧
    ((∃ b, Bernoulli.construct (none : Option (Unit → ℝ)) (some pHalf) =
        .ok b) ↔ (none : Option (Unit → ℝ)).isSome ≠ (some pHalf).isSome) ∧
    (∀ l, Bernoulli.construct (some l) (none : Option (Unit → ℝ)) =
      .ok { logits := l, p := fun i => sigmoid (l i),
            q := fun i => 1 - sigmoid (l i) }) ∧
    (∀ pr, Bernoulli.construct (none : Option (Unit → ℝ)) (some pr) =
      .ok { logits := fun i => Real.log (pr i) - Real.log (1 - pr i), p := pr,
            q := fun i => 1 - pr i }) :=
  bernoulli_construct_exclusive none (some pHalf)

/-- C2: for every constructed instance whose `p` lies in `[0,1]`, the stored
complement satisfies `q = 1 - p`, the mean operation returns `p`, and the
variance operation returns `p * q`. -/
theorem bernoulli_q_mean_variance {ι : Type} (lo po : Option (ι → ℝ))
    (b : Bernoulli ι) (hb : Bernoulli.construct lo po = .ok b) (i : ι)
    (hp : 0 ≤ b.p i ∧ b.p i ≤ 1) :
    b.q i = 1 - b.p i ∧ b.mean i = b.p i ∧ b.variance i = b.p i * b.q i := by
  cases lo <;> cases po <;>
    simp [Bernoulli.construct, get_logits_and_prob, Except.map] at hb <;>
    subst hb <;>
    exact ⟨rfl, rfl, mul_comm _ _⟩

theorem bernoulli_q_mean_variance_witness :
    bHalf.q () = 1 - bHalf.p () ∧ bHalf.mean () = bHalf.p () ∧
      bHalf.variance () = bHalf.p () * bHalf.q () :=
  bernoulli_q_mean_variance none (some pHalf) bHalf rfl ()
    (by constructor <;> norm_num [bHalf, pHalf])

/-- C3: for every instance and every event tensor with entries in `{0,1}`,
the probability operation returns exactly the exponential of the
log-probability operation at the same event. -/
theorem bernoulli_prob_eq_exp_log_prob {ι : Type} (b : Bernoulli ι)
    (event : ι → ℝ) (_he : ∀ j, event j = 0 ∨ event j = 1) (i : ι) :
    b.prob event i = Real.exp (b.log_prob event i) := rfl

theorem bernoulli_prob_eq_exp_log_prob_witness :
    bHalf.prob eventOne () = Real.exp (bHalf.log_prob eventOne ()) :=
  bernoulli_prob_eq_exp_log_prob bHalf eventOne (fun _ => Or.inr rfl) ()

/-- C4: the registered pairwise KL divergence applied to the pair `(a, a)`
returns `0` in every batch entry. -/
theorem kl_bernoulli_self_eq_zero {ι : Type} (a : Bernoulli ι) (i : ι) :
    kl_bernoulli_bernoulli a a i = 0 := by
  simp only [kl_bernoulli_bernoulli]
  ring

theorem kl_bernoulli_self_eq_zero_witness :
    kl_bernoulli_bernoulli bHalf bHalf () = 0 :=
  kl_bernoulli_self_eq_zero bHalf ()

/-- C5: the mode operation returns `1` exactly in the batch entries where
`p > q`, and `0` in all other entries, in particular at the tie `p = q`. -/
theorem bernoulli_mode_iff {ι : Type} (b : Bernoulli ι) (i : ι) :
    (b.mode i = 1 ↔ b.p i > b.q i) ∧
    (¬b.p i > b.q i → b.mode i = 0) ∧
    (b.p i = b.q i → b.mode i = 0) := by
  refine ⟨?_, fun h => ?_, fun h => ?_⟩
  · by_cases h : b.p i > b.q i <;> simp [Bernoulli.mode, cast_bool, h]
  · simp [Bernoulli.mode, cast_bool, h]
  · simp [Bernoulli.mode, cast_bool, h]

theorem bernoulli_mode_iff_witness :
    (bHalf.mode () = 1 ↔ bHalf.p () > bHalf.q ()) ∧
    (¬bHalf.p () > bHalf.q () → bHalf.mode () = 0) ∧
    (bHalf.p () = bHalf.q () → bHalf.mode () = 0) :=
  bernoulli_mode_iff bHalf ()

/-- C6: when the uniform noise lies in `[0,1)`, sampling from an instance
with `p = 1` yields `1` in every entry, and sampling from an instance with
`p = 0` yields `0` in every entry. -/
theorem bernoulli_sample_extreme {ι : Type} (b : Bernoulli ι) (n : ℕ)
    (u : Fin n → ι → ℝ) (hu : ∀ k i, 0 ≤ u k i ∧ u k i < 1) (k : Fin n)
    (i : ι) :
    (b.p i = 1 → b.sample_n n u k i = 1) ∧
    (b.p i = 0 → b.sample_n n u k i = 0) := by
  constructor <;> intro hp
  · simp [Bernoulli.sample_n, cast_bool, hp, (hu k i).2]
  · simp [Bernoulli.sample_n, cast_bool, hp, not_lt.mpr (hu k i).1]

theorem bernoulli_sample_extreme_witness :
    (bExtreme.p () = 1 → bExtreme.sample_n 1 uZero 0 () = 1) ∧
    (bExtreme.p () = 0 → bExtreme.sample_n 1 uZero 0 () = 0) :=
  bernoulli_sample_extreme bExtreme 1 uZero
    (fun _ _ => ⟨le_refl 0, by norm_num [uZero]⟩) 0 ()

/-- C7: for `n` samples the sampling operation takes uniform noise of shape
`[n] + batch_shape`, compares it elementwise strictly-less-than against `p`,
and casts the boolean result to the sample dtype, so each entry is `1` when
the noise is below `p` and `0` otherwise. -/
theorem bernoulli_sample_structure {ι : Type} (b : Bernoulli ι) (n : ℕ)
    (u : Fin n → ι → ℝ) (k : Fin n) (i : ι) :
    b.sample_n n u k i = cast_bool (decide (u k i < b.p i)) ∧
    b.sample_n n u k i = if u k i < b.p i then 1 else 0 := by
  refine ⟨rfl, ?_⟩
  by_cases h : u k i < b.p i <;> simp [Bernoulli.sample_n, cast_bool, h]

theorem bernoulli_sample_structure_witness :
    bExtreme.sample_n 1 uZero 0 () =
      cast_bool (decide (uZero 0 () < bExtreme.p ())) ∧
    bExtreme.sample_n 1 uZero 0 () =
      if uZero 0 () < bExtreme.p () then 1 else 0 :=
  bernoulli_sample_structure bExtreme 1 uZero 0 ()

/-- C8: the log-probability operation broadcasts the event and the logits
to a common shape and returns the negated sigmoid cross-entropy of the
broadcast pair; for an event with entries in `{0,1}` this equals
`y*log(p) + (1-y)*log(1-p)` with `p = sigmoid(logits)`. -/
theorem bernoulli_log_prob_closed_form {ι : Type} (b : Bernoulli ι)
    (event : ι → ℝ) (_he : ∀ j, event j = 0 ∨ event j = 1) (i : ι) :
    b.log_prob event i =
      -(sigmoid_cross_entropy_with_logits (b.logits i) (event i)) ∧
    b.log_prob event i =
      event i * Real.log (sigmoid (b.logits i)) +
        (1 - event i) * Real.log (1 - sigmoid (b.logits i)) := by
  have hstruct : b.log_prob event i =
      -(sigmoid_cross_entropy_with_logits (b.logits i) (event i)) := by
    simp [Bernoulli.log_prob, ones_like]
  exact ⟨hstruct, hstruct.trans (neg_sce_closed_form _ _)⟩

theorem bernoulli_log_prob_closed_form_witness :
    bHalf.log_prob eventOne () =
      -(sigmoid_cross_entropy_with_logits (bHalf.logits ()) (eventOne ())) ∧
    bHalf.log_prob eventOne () =
      eventOne () * Real.log (sigmoid (bHalf.logits ())) +
        (1 - eventOne ()) * Real.log (1 - sigmoid (bHalf.logits ())) :=
  bernoulli_log_prob_closed_form bHalf eventOne (fun _ => Or.inr rfl) ()

/-- C9: the entropy operation's closed form
`-x*(sigmoid(x) - 1) + log(1 + exp(-x))` equals the reference entropy
`-p*log(p) - q*log(q)` with `p = sigmoid(x)` and `q = 1 - p`. -/
theorem bernoulli_entropy_eq_spec {ι : Type} (b : Bernoulli ι) (i : ι) :
    b.entropy i = bernoulliEntropySpec (sigmoid (b.logits i)) := by
  rw [Bernoulli.entropy, bernoulliEntropySpec, log_sigmoid_eq,
    log_one_sub_sigmoid]
  ring

theorem bernoulli_entropy_eq_spec_witness :
    bHalf.entropy () = bernoulliEntropySpec (sigmoid (bHalf.logits ())) :=
  bernoulli_entropy_eq_spec bHalf ()

/-- C10: constructing `BernoulliWithSigmoidP` with raw parameter `x` yields
a distribution whose every operation (`p`, `q`, `logits`, mean, variance,
mode, entropy, log-probability, probability, sampling) agrees with the base
`Bernoulli` constructed with `p = sigmoid(x)`. -/
theorem bernoulli_with_sigmoid_p_agrees {ι : Type} (x : ι → ℝ) :
    ∃ b c : Bernoulli ι,
      BernoulliWithSigmoidP.construct x = .ok b ∧
      Bernoulli.construct none (some fun i => sigmoid (x i)) = .ok c ∧
      b.p = c.p ∧ b.q = c.q ∧ b.logits = c.logits ∧
      b.mean = c.mean ∧ b.variance = c.variance ∧ b.mode = c.mode ∧
      b.entropy = c.entropy ∧ b.std = c.std ∧
      (∀ event, b.log_prob event = c.log_prob event) ∧
      (∀ event, b.prob event = c.prob event) ∧
      (∀ n u, b.sample_n n u = c.sample_n n u) :=
  ⟨_, _, rfl, rfl, rfl, rfl, rfl, rfl, rfl, rfl, rfl, rfl,
    fun _ => rfl, fun _ => rfl, fun _ _ => rfl⟩

theorem bernoulli_with_sigmoid_p_agrees_witness :
    ∃ b c : Bernoulli Unit,
      BernoulliWithSigmoidP.construct xZero = .ok b ∧
      Bernoulli.construct none (some fun i => sigmoid (xZero i)) = .ok c ∧
      b.p = c.p ∧ b.q = c.q ∧ b.logits = c.logits ∧
      b.mean = c.mean ∧ b.variance = c.variance ∧ b.mode = c.mode ∧
      b.entropy = c.entropy ∧ b.std = c.std ∧
      (∀ event, b.log_prob event = c.log_prob event) ∧
      (∀ event, b.prob event = c.prob event) ∧
      (∀ n u, b.sample_n n u = c.sample_n n u) :=
  bernoulli_with_sigmoid_p_agrees xZero
